/-
  Verification of the llmverse streaming-orchestration core.

  Shallow embedding of the Go sources:
    * `src/aicore/tool.go`  — tool dispatch (`executeToolCalls`) and the
      streaming transcoder (`parseToolCallStreamingChunk`);
    * `src/aicore/agent.go` — the per-turn pipeline (`Query` goroutine body,
      `saveHistory`, `ClearHistory`, history keys);
    * `src/bot/discord.go`  — the chunked delivery loop in `messageCreate`.

  Go strings are embedded as Lean `String` where the code treats them as
  opaque text, and as `List Char` where the code slices by rune
  (`[]rune(message)` in the Discord loop).  External effects (the LLM
  provider, HTTP tool backends, JSON decoding by `encoding/json`) are
  passed in as explicit data or function parameters; everything the
  repository's own code does with their results is embedded directly.
-/
import Mathlib

namespace Llmverse

/-! ## Data model (langchaingo `llms` types as used by this repository) -/

/-- Chat roles (`llms.ChatMessageType...`) used by the repository. -/
inductive ChatRole where
  | system
  | human
  | ai
  | tool
deriving DecidableEq, Repr

/-- `llms.FunctionCall`: a tool invocation request's name and raw JSON
arguments. -/
structure FunctionCall where
  name : String
  arguments : String
deriving DecidableEq, Repr

/-- `llms.ToolCall`: id plus the function call. -/
structure ToolCall where
  id : String
  functionCall : FunctionCall
deriving DecidableEq, Repr

/-- `llms.ToolCallResponse`: a tool result carried in a Tool-role message. -/
structure ToolCallResponse where
  toolCallID : String
  name : String
  content : String
deriving DecidableEq, Repr

/-- `llms.ContentPart` restricted to the constructors this repository
builds: text parts, tool-call parts and tool-response parts. -/
inductive ContentPart where
  | text (s : String)
  | toolCall (tc : ToolCall)
  | toolResponse (tr : ToolCallResponse)
deriving DecidableEq, Repr

/-- `llms.MessageContent`: a role together with ordered parts. -/
structure MessageContent where
  role : ChatRole
  parts : List ContentPart
deriving DecidableEq, Repr

/-- `llms.TextParts(role, text)`: a one-part text message. -/
def TextParts (role : ChatRole) (s : String) : MessageContent :=
  { role := role, parts := [ContentPart.text s] }

/-! ## StreamEventTranscoder (`parseToolCallStreamingChunk`, tool.go) -/

/-- The wire struct `toolCallStreamingChunk` of tool.go: what one element
of the provider's structured tool-call delta JSON decodes to. -/
structure ToolCallStreamingChunk where
  id : String
  type : String
  function : FunctionCall
deriving DecidableEq, Repr

/-- A JSON decoder standing for `json.Unmarshal(chunk, &[]toolCallStreamingChunk)`:
`none` models a decode error, `some tcs` a successful decode.  The decoder
itself is `encoding/json` (external); everything done with its result is
embedded below. -/
def JsonToolDecoder := String → Option (List ToolCallStreamingChunk)

/-- `parseToolCallStreamingChunk(chunk, end)` of tool.go, with the JSON
decoder passed in explicitly.  `isEnd = true` is the synthetic terminal
call and returns the close marker; otherwise a decode failure or an empty
decoded slice falls through to returning the raw chunk text. -/
def parseToolCallStreamingChunk (dec : JsonToolDecoder) (chunk : String)
    (isEnd : Bool) : String :=
  if isEnd then "`||\n\n"
  else
    match dec chunk with
    | none => chunk
    | some tcs =>
      match tcs with
      | [] => chunk
      | c :: _ =>
        if c.function.name ≠ "" then
          let res := "||*** Running tool: [" ++ c.function.name ++
            "] with arguments: *** `"
          if c.function.arguments ≠ "" then res ++ c.function.arguments
          else res
        else if c.function.arguments ≠ "" then c.function.arguments
        else chunk

/-! ## ToolCallOrchestrator (`executeToolCalls`, tool.go)

The provider (`model.GenerateContent`) and the HTTP tool backends are
external collaborators; they enter the embedding as data
(`ProviderRoundTrip`) and as function parameters (`ToolExecEnv`).  The
repository's own control flow over their results is embedded directly. -/

/-- `resp.Choices[0]` as used by `executeToolCalls`: the final text plus
the tool-call requests. -/
structure ContentChoice where
  content : String
  toolCalls : List ToolCall
deriving DecidableEq, Repr

/-- One provider round-trip as observed through `GenerateContent`:
the chunks fed to the registered streaming callback (in order), and the
final outcome. -/
structure ProviderRoundTrip where
  streamed : List String
  result : Except String ContentChoice
deriving Repr

/-- The external tool implementations and the `json.Unmarshal` argument
decoders used by the dispatch switch of `executeToolCalls`.  Each decoder
stands for unmarshalling the raw JSON arguments into the corresponding
`args` struct (returning the one field the tool consumes); each tool
stands for the HTTP helper (`getExchangeRate`, `generateImage`,
`getWeather`). -/
structure ToolExecEnv where
  parseExchangeArgs : String → Except String String
  getExchangeRate : String → Except String String
  parseImageArgs : String → Except String String
  generateImage : String → Except String String
  parseWeatherArgs : String → Except String String
  getWeather : String → Except String String

/-- Observable events of one `executeToolCalls` run, in program order:
`outFragment s` is a send of `s` on the output channel from the streaming
callback; `closeMarkerSent` is the goroutine
`go func() { output <- parseToolCallStreamingChunk(nil, true) }` recorded
at its spawn point (the earliest point its send can be observed by the
always-draining consumer); `dispatch n` is the invocation of the external
implementation of tool `n`. -/
inductive ToolEvent where
  | outFragment (s : String)
  | closeMarkerSent
  | dispatch (name : String)
deriving DecidableEq, Repr

/-- The `for _, tc := range respChoice.ToolCalls` dispatch loop of
`executeToolCalls`: returns the dispatch events, and on success the
tool-call parts appended to `ar.Parts` plus the Tool-role messages, in
order; an argument-decode or tool failure aborts the whole loop with that
error, and an unknown tool name is skipped. -/
def toolCallLoop (env : ToolExecEnv) :
    List ToolCall → List ToolEvent × Except String (List ContentPart × List MessageContent)
  | [] => ([], Except.ok ([], []))
  | tc :: rest =>
    if tc.functionCall.name = "getExchangeRate" then
      match env.parseExchangeArgs tc.functionCall.arguments with
      | Except.error e => ([], Except.error e)
      | Except.ok d =>
        match env.getExchangeRate d with
        | Except.error e => ([ToolEvent.dispatch tc.functionCall.name], Except.error e)
        | Except.ok rs =>
          (ToolEvent.dispatch tc.functionCall.name :: (toolCallLoop env rest).1,
            match (toolCallLoop env rest).2 with
            | Except.error e => Except.error e
            | Except.ok (ps, ms) =>
              Except.ok (ContentPart.toolCall tc :: ps,
                { role := ChatRole.tool,
                  parts := [ContentPart.toolResponse
                    { toolCallID := tc.id, name := tc.functionCall.name,
                      content := rs }] } :: ms))
    else if tc.functionCall.name = "generateImage" then
      match env.parseImageArgs tc.functionCall.arguments with
      | Except.error e => ([], Except.error e)
      | Except.ok d =>
        match env.generateImage d with
        | Except.error e => ([ToolEvent.dispatch tc.functionCall.name], Except.error e)
        | Except.ok rs =>
          (ToolEvent.dispatch tc.functionCall.name :: (toolCallLoop env rest).1,
            match (toolCallLoop env rest).2 with
            | Except.error e => Except.error e
            | Except.ok (ps, ms) =>
              Except.ok (ContentPart.toolCall tc :: ps,
                { role := ChatRole.tool,
                  parts := [ContentPart.toolResponse
                    { toolCallID := tc.id, name := tc.functionCall.name,
                      content := "the generated image url is: " ++ rs }] } :: ms))
    else if tc.functionCall.name = "getWeather" then
      match env.parseWeatherArgs tc.functionCall.arguments with
      | Except.error e => ([], Except.error e)
      | Except.ok d =>
        match env.getWeather d with
        | Except.error e => ([ToolEvent.dispatch tc.functionCall.name], Except.error e)
        | Except.ok rs =>
          (ToolEvent.dispatch tc.functionCall.name :: (toolCallLoop env rest).1,
            match (toolCallLoop env rest).2 with
            | Except.error e => Except.error e
            | Except.ok (ps, ms) =>
              Except.ok (ContentPart.toolCall tc :: ps,
                { role := ChatRole.tool,
                  parts := [ContentPart.toolResponse
                    { toolCallID := tc.id, name := tc.functionCall.name,
                      content := rs }] } :: ms))
    else
      -- default branch: `slog.Warn(... "hint unknown tool call" ...); continue`
      toolCallLoop env rest


/-- `executeToolCalls` of tool.go.  Returns the event trace in program
order together with the Go results `(content, return_direct, error)`:
`Except.error e` models a non-nil error, `Except.ok (content, rd)` the
success cases. -/
def executeToolCalls (env : ToolExecEnv) (dec : JsonToolDecoder)
    (rt : ProviderRoundTrip) (content : List MessageContent) :
    List ToolEvent × Except String (List MessageContent × Bool) :=
  -- the streaming callback: transcodes every chunk onto `output`,
  -- sets `isStreaming`, and accumulates the raw bytes in `chunks`
  let isStreaming : Bool := !rt.streamed.isEmpty
  let chunksLen : Nat := (rt.streamed.map String.length).sum
  let chunkEvents := rt.streamed.map
    (fun c => ToolEvent.outFragment (parseToolCallStreamingChunk dec c false))
  match rt.result with
  | Except.error e => (chunkEvents, Except.error e)
  | Except.ok choice =>
    let ar := TextParts ChatRole.ai choice.content
    if choice.toolCalls.isEmpty then
      (chunkEvents, Except.ok (content ++ [ar], true))
    else
      let closeEvents :=
        if isStreaming ∧ 0 < chunksLen then [ToolEvent.closeMarkerSent] else []
      (chunkEvents ++ closeEvents ++ (toolCallLoop env choice.toolCalls).1,
        match (toolCallLoop env choice.toolCalls).2 with
        | Except.error e => Except.error e
        | Except.ok (ps, toolMessages) =>
          Except.ok (content ++ [{ ar with parts := ar.parts ++ ps }] ++ toolMessages,
            false))

/-! ## ConversationPipeline (`Query` goroutine body and `saveHistory`,
agent.go) -/

/-- The generation-phase provider round-trip (the `GenerateContent` call
at agent.go:315): streamed chunks fed to the raw callback, and the final
outcome, `Except.ok t` standing for `resp.Choices[0].Content = t`. -/
structure GenRoundTrip where
  streamed : List String
  result : Except String String
deriving Repr

/-- `c.Parts[0].(llms.TextContent).Text`: the text of the first part.
(The Go code type-asserts; every message this repository passes to
`saveHistory` has a text first part.) -/
def firstPartText (m : MessageContent) : String :=
  match m.parts with
  | ContentPart.text s :: _ => s
  | _ => ""

/-- `saveHistory` of agent.go: the `(role, text)` entries appended to the
conversation buffer, in order.  Only Human and AI roles are persisted;
any other role falls through the switch and appends nothing. -/
def saveHistoryEntries (content : List MessageContent) : List (ChatRole × String) :=
  content.filterMap (fun c =>
    match c.role with
    | ChatRole.human => some (ChatRole.human, firstPartText c)
    | ChatRole.ai => some (ChatRole.ai, firstPartText c)
    | _ => none)

/-- The externally observable outcome of one `Query` goroutine run:
the fragments sent on the output channel in order, the history entries
appended by `saveHistory`, how many times `GenerateContent` was invoked,
and whether an error string was emitted as the final fragment. -/
structure QueryOutcome where
  fragments : List String
  saved : List (ChatRole × String)
  providerCalls : Nat
  errored : Bool
deriving DecidableEq, Repr

/-- The channel sends corresponding to a tool-phase event trace: a
`closeMarkerSent` event delivers `parseToolCallStreamingChunk(nil, true)`,
i.e. the close marker string. -/
def fragmentsOfToolEvents (evs : List ToolEvent) : List String :=
  evs.filterMap (fun e =>
    match e with
    | ToolEvent.outFragment s => some s
    | ToolEvent.closeMarkerSent => some ("`||\n\n")
    | ToolEvent.dispatch _ => none)

/-- The Generating/Persisting tail of the `Query` goroutine
(agent.go:308-333): stream raw chunks to `output`; on provider error emit
the error text and stop; if no streaming byte was observed emit the
synchronous text as one fragment unless it is empty, in which case return
without persisting; otherwise persist the Human input and AI text. -/
def generationPhase (gen : GenRoundTrip) (input : String) : QueryOutcome :=
  let isStreaming : Bool := !gen.streamed.isEmpty
  match gen.result with
  | Except.error e =>
    { fragments := gen.streamed ++ [e], saved := [], providerCalls := 1,
      errored := true }
  | Except.ok respText =>
    if !isStreaming then
      if respText ≠ "" then
        { fragments := gen.streamed ++ [respText],
          saved := saveHistoryEntries
            [TextParts ChatRole.human input, TextParts ChatRole.ai respText],
          providerCalls := 1, errored := false }
      else
        { fragments := gen.streamed, saved := [], providerCalls := 1,
          errored := false }
    else
      { fragments := gen.streamed,
        saved := saveHistoryEntries
          [TextParts ChatRole.human input, TextParts ChatRole.ai respText],
        providerCalls := 1, errored := false }

/-- The whole `Query` goroutine (agent.go:281-334).  When `toolSupport`
is set the tool phase runs first; on `return_direct` only
`content[len(content)-1]` is persisted and the goroutine returns without
a second provider call; otherwise the generation phase follows. -/
def queryGoroutine (toolSupport : Bool) (env : ToolExecEnv)
    (dec : JsonToolDecoder) (toolRT : ProviderRoundTrip) (gen : GenRoundTrip)
    (content : List MessageContent) (input : String) : QueryOutcome :=
  if toolSupport then
    let (evs, r) := executeToolCalls env dec toolRT content
    let frags := fragmentsOfToolEvents evs
    match r with
    | Except.error e =>
      { fragments := frags ++ [e], saved := [], providerCalls := 1,
        errored := true }
    | Except.ok (content2, true) =>
      { fragments := frags,
        saved :=
          match content2.getLast? with
          | some m => saveHistoryEntries [m]
          | none => [],
        providerCalls := 1, errored := false }
    | Except.ok (_, false) =>
      let g := generationPhase gen input
      { fragments := frags ++ g.fragments, saved := g.saved,
        providerCalls := 1 + g.providerCalls, errored := g.errored }
  else
    generationPhase gen input

/-! ## History store (`ClearHistory` and history keys, agent.go)

Strings are embedded as `List Char` here so that Go's
`strings.HasPrefix` is `List.isPrefixOf`. -/

/-- The history key built in `Query` (agent.go:253):
`user + "_" + modelName`. -/
def historyKey (user modelName : List Char) : List Char :=
  user ++ [Char.ofNat 0x5f] ++ modelName

/-- Go's `strings.HasPrefix(s, pre)`: does `s` start with `pre`? -/
def hasPrefixChars : List Char → List Char → Bool
  | _, [] => true
  | [], _ :: _ => false
  | c :: s, p :: ps => c = p && hasPrefixChars s ps

/-- `ClearHistory` of agent.go: ranges over the history map and deletes
every entry whose key has `user` as a prefix
(`strings.HasPrefix(k.(string), user)`).  The map is embedded as an
association list of keys and opaque buffers. -/
def clearHistory {α : Type} (user : List Char) (hist : List (List Char × α)) :
    List (List Char × α) :=
  hist.filter (fun kv => !(hasPrefixChars kv.1 user))

/-! ## `availableTools` and the package-level `defaultTools` (tool.go) -/

/-- A tool definition (`llms.Tool` with its `FunctionDefinition`); the
JSON-schema parameter map carries no control flow in this repository and
is elided. -/
structure Tool where
  type : String
  functionName : String
  description : String
deriving DecidableEq, Repr

/-- `config.OpenAI` (config.go). -/
def ConfigOpenAI : String := "openai"

/-- The subset of `config.LLMSetting` that `availableTools` consults. -/
structure LLMSetting where
  name : String
  openWeatherKey : Option String
deriving DecidableEq, Repr

/-- The image tool appended for OpenAI settings (tool.go:21-37). -/
def imageTool : Tool :=
  { type := "function", functionName := "generateImage",
    description := "Generate a detailed prompt to generate an image based on the following description: \x7bimage_desc\x7d" }

/-- The weather tool appended when an OpenWeather key is configured
(tool.go:43-59). -/
def weatherTool : Tool :=
  { type := "function", functionName := "getWeather",
    description := "Get the weather for a specific location based on the following location: \x7blocation\x7d" }

/-- The initial value of the package-level `defaultTools` slice
(tool.go:67-93). -/
def defaultTools0 : List Tool :=
  [{ type := "function", functionName := "getExchangeRate",
     description := "Get the exchange rate for currencies between countries" }]

/-- `availableTools(modelSetting)` of tool.go, with the package-level
`defaultTools` variable made explicit: the returned list *is* the new
value of `defaultTools`, because both appends reassign the package
variable (`defaultTools = append(defaultTools, ...)`) and the function
returns it. -/
def availableTools (ms : LLMSetting) (defaultTools : List Tool) : List Tool :=
  let d1 := if ms.name = ConfigOpenAI then defaultTools ++ [imageTool] else defaultTools
  match ms.openWeatherKey with
  | some k => if k ≠ "" then d1 ++ [weatherTool] else d1
  | none => d1

/-! ## ChunkedDeliveryAdapter (the delivery loop of `messageCreate`,
discord.go:134-168)

The loop slices by rune (`[]rune(message)`), so text is embedded as
`List Char`.  The external surface is recorded as the displayed content
of each Discord message: `sealed` lists the messages no longer edited,
`openDisp` is the currently open message's displayed content. -/

/-- `combineModelWithMessage` of discord.go. -/
def combineModelWithMessage (modelName message : List Char) : List Char :=
  modelName ++ (": ").toList ++ message

/-- The continuation seed of a ticker-path split:
`combineModelWithMessage(modelName, "⏩ ")`. -/
def contSeed (modelName : List Char) : List Char :=
  combineModelWithMessage modelName (("⏩ ").toList)

/-- An event observed by the delivery `select` loop: a ticker tick, or a
fragment received from the output channel.  Channel closure is the
implicit end of the event list, handled by `deliveryClose`. -/
inductive DEvent where
  | tick
  | chunk (s : List Char)

/-- The delivery loop state: the accumulated `message` variable, the
displayed content of the open Discord message, and the sealed messages in
creation order. -/
structure DeliveryState where
  message : List Char
  openDisp : List Char
  sealed : List (List Char)

/-- The state before the loop: `message = combineModelWithMessage(modelName, "")`
and the open message created with `"✏️ ..."`. -/
def initDelivery (modelName : List Char) : DeliveryState :=
  { message := combineModelWithMessage modelName []
    openDisp := ("✏️ ...").toList
    sealed := [] }

/-- One iteration of the `select` loop (discord.go:140-167), for the two
non-closing cases.  A tick edits the open message in place when
`len(umessage) <= 2000`; otherwise it seals the open message at exactly
the first 2000 runes and replies with a fresh message seeded with
`combineModelWithMessage(modelName, "⏩ ")` plus the remainder.  A
received chunk is appended to `message`. -/
def deliveryStep (modelName : List Char) (s : DeliveryState) : DEvent → DeliveryState
  | DEvent.tick =>
    if s.message.length ≤ 2000 then { s with openDisp := s.message }
    else
      let newMessage := contSeed modelName ++ s.message.drop 2000
      { message := newMessage, openDisp := newMessage,
        sealed := s.sealed ++ [s.message.take 2000] }
  | DEvent.chunk c => { s with message := s.message ++ c }

/-- The channel-closed branch (discord.go:154-164): after the settle
sleep, if `message` fits, the open message is edited to it; otherwise the
open message is left as displayed and only `message[2000:]` is sent as
one final reply.  Returns every message's final displayed content in
creation order. -/
def deliveryClose (s : DeliveryState) : List (List Char) :=
  if s.message.length ≤ 2000 then s.sealed ++ [s.message]
  else s.sealed ++ [s.openDisp, s.message.drop 2000]

/-- Run the delivery loop over an event sequence ending in channel
closure. -/
def runDelivery (modelName : List Char) (events : List DEvent) : List (List Char) :=
  deliveryClose (events.foldl (deliveryStep modelName) (initDelivery modelName))

/-- The text the loop accumulates when no split interferes: the initial
`combineModelWithMessage(modelName, "")` plus every received fragment in
order. -/
def accumulatedText (modelName : List Char) (events : List DEvent) : List Char :=
  combineModelWithMessage modelName [] ++
    (events.filterMap (fun e =>
      match e with
      | DEvent.chunk c => some c
      | DEvent.tick => none)).flatten

/-! ## Trace predicates for the close-marker ordering -/

/-- Is this event a tool dispatch? -/
def isDispatch : ToolEvent → Bool
  | ToolEvent.dispatch _ => true
  | _ => false

/-- Is this event the close-marker send? -/
def isClose : ToolEvent → Bool
  | ToolEvent.closeMarkerSent => true
  | _ => false

/-- How many times the close marker is emitted in a trace. -/
def countCloseMarkers (tr : List ToolEvent) : Nat :=
  (tr.filter isClose).length

/-- Does some dispatch occur strictly after some close-marker emission? -/
def dispatchAfterClose : List ToolEvent → Bool
  | [] => false
  | e :: rest => (isClose e && rest.any isDispatch) || dispatchAfterClose rest

/-- Does some close-marker emission occur strictly after some dispatch? -/
def dispatchBeforeClose : List ToolEvent → Bool
  | [] => false
  | e :: rest => (isDispatch e && rest.any isClose) || dispatchBeforeClose rest

/-! ## Concrete instances used by counterexamples and witnesses -/

/-- A decoder for which the chunk `"x"` decodes to one delta carrying
tool name `"t"` and partial arguments `"a"`. -/
def decC6 : JsonToolDecoder := fun s =>
  if s = "x" then
    some [{ id := "1", type := "function",
            function := { name := "t", arguments := "a" } }]
  else none

/-- Tool environment for concrete runs: every decoder and tool succeeds
with a fixed value. -/
def envOk : ToolExecEnv :=
  { parseExchangeArgs := fun _ => Except.ok "latest"
    getExchangeRate := fun _ => Except.ok "rates"
    parseImageArgs := fun _ => Except.ok "a cat"
    generateImage := fun _ => Except.ok "http-url"
    parseWeatherArgs := fun _ => Except.ok "loc"
    getWeather := fun _ => Except.ok "sunny" }

/-- A decoder that never recognises the structured delta format. -/
def decNone : JsonToolDecoder := fun _ => none

/-- A tool-phase round-trip with no streaming and a tool-free response
`"ans"`: the return-direct case. -/
def rtDirect : ProviderRoundTrip :=
  { streamed := [], result := Except.ok { content := "ans", toolCalls := [] } }

/-- A generation-phase round-trip that is never reached (placeholder for
return-direct runs). -/
def genUnused : GenRoundTrip := { streamed := [], result := Except.ok "" }

/-- An exchange-rate tool call. -/
def tcExchange : ToolCall :=
  { id := "1", functionCall := { name := "getExchangeRate", arguments := "null" } }

/-- A weather tool call. -/
def tcWeather : ToolCall :=
  { id := "2", functionCall := { name := "getWeather", arguments := "null" } }

/-- A tool call whose name matches no implementation. -/
def tcUnknown : ToolCall :=
  { id := "9", functionCall := { name := "doSomethingUndefined", arguments := "null" } }

/-- A streaming round-trip requesting two tool calls: one streamed byte
was observed, and the response carries the exchange-rate and weather
calls. -/
def rtTwoTools : ProviderRoundTrip :=
  { streamed := ["x"],
    result := Except.ok { content := "", toolCalls := [tcExchange, tcWeather] } }

/-- The event trace of `executeToolCalls` on `rtTwoTools`. -/
def traceTwoTools : List ToolEvent :=
  (executeToolCalls envOk decNone rtTwoTools []).1

/-- The delivery model name used by the concrete delivery run. -/
def mdlC1 : List Char := ("m").toList

/-- A delivery event sequence: one 5000-rune fragment, then channel
close. -/
def evsC1 : List DEvent := [DEvent.chunk (List.replicate 5000 'a')]

/-- A mid-stream delivery state whose accumulated text holds 2001
runes. -/
def stateC1 : DeliveryState :=
  { message := List.replicate 2001 'a', openDisp := [], sealed := [] }

/-! ## Theorems -/

/-- Claim C6, counterexample: on a parsed chunk with non-empty tool name
`"t"` and arguments `"a"`, the transcoder does not return the claimed
opener `"*** Running tool: [t] with arguments: ***"` followed by the
arguments; it returns `"||*** Running tool: [t] with arguments: *** `a"`,
with a leading `"||"` and a backtick after the final `"***"`. -/
theorem claim6_counterexample :
    parseToolCallStreamingChunk decC6 ("x") false =
      "||*** Running tool: [t] with arguments: *** `a" ∧
    parseToolCallStreamingChunk decC6 ("x") false ≠
      "*** Running tool: [t] with arguments: ***" ++ "a" := by
  constructor
  · rfl
  · decide

/-- Claim C6 as amended: for a chunk that decodes with a non-empty tool
name, the transcoder returns exactly
`"||*** Running tool: [<name>] with arguments: *** `"` followed by the
partial arguments already present; and a subsequently parsed chunk of the
same call (empty name, non-empty arguments) contributes exactly its
arguments text. -/
theorem claim6_amended (dec : JsonToolDecoder) (chunk : String)
    (c : ToolCallStreamingChunk) (rest : List ToolCallStreamingChunk)
    (h : dec chunk = some (c :: rest)) :
    (c.function.name ≠ "" →
      parseToolCallStreamingChunk dec chunk false =
        "||*** Running tool: [" ++ c.function.name ++
          "] with arguments: *** `" ++ c.function.arguments) ∧
    (c.function.name = "" → c.function.arguments ≠ "" →
      parseToolCallStreamingChunk dec chunk false = c.function.arguments) := by
  unfold parseToolCallStreamingChunk
  rw [h]
  constructor
  · intro hn
    by_cases ha : c.function.arguments = ""
    · simp [hn, ha]
    · simp [hn, ha]
  · intro hn ha
    simp [hn, ha]

/-- Claim C6 amended, witness at the concrete decoder `decC6` and chunk
`"x"`. -/
theorem claim6_witness :
    decC6 ("x") = some [{ id := "1", type := "function",
                          function := { name := "t", arguments := "a" } }] ∧
    (("t" : String) ≠ "" →
      parseToolCallStreamingChunk decC6 ("x") false =
        "||*** Running tool: [" ++ "t" ++ "] with arguments: *** `" ++ "a") := by
  refine ⟨rfl, ?_⟩
  exact (claim6_amended decC6 ("x")
    { id := "1", type := "function", function := { name := "t", arguments := "a" } }
    [] rfl).1

/-- Claim C7: a raw chunk that does not decode as the structured
tool-call delta format is returned unchanged as literal text; transcoding
is total and never fails the turn. -/
theorem claim7_raw_passthrough (dec : JsonToolDecoder) (chunk : String)
    (h : dec chunk = none) :
    parseToolCallStreamingChunk dec chunk false = chunk := by
  simp [parseToolCallStreamingChunk, h]

/-- Claim C7, witness at the always-failing decoder and the chunk
`"hello"`. -/
theorem claim7_witness :
    (fun _ : String => (none : Option (List ToolCallStreamingChunk))) ("hello") = none ∧
    parseToolCallStreamingChunk
      (fun _ : String => (none : Option (List ToolCallStreamingChunk)))
      ("hello") false = "hello" :=
  ⟨rfl, claim7_raw_passthrough
    (fun _ : String => (none : Option (List ToolCallStreamingChunk))) ("hello") rfl⟩

/-- Every string has the empty prefix. -/
theorem hasPrefixChars_nil (l : List Char) : hasPrefixChars l [] = true := by
  cases l <;> rfl

/-- Extending a string on the right preserves every prefix of it. -/
theorem hasPrefixChars_append_right (s t p : List Char)
    (h : hasPrefixChars s p = true) : hasPrefixChars (s ++ t) p = true := by
  induction p generalizing s with
  | nil => exact hasPrefixChars_nil _
  | cons c ps ih =>
    cases s with
    | nil => simp [hasPrefixChars] at h
    | cons a s' =>
      simp only [hasPrefixChars, Bool.and_eq_true] at h
      simpa [hasPrefixChars, h.1] using ih s' h.2

/-- Claim C9: `ClearHistory(user)` deletes exactly the conversations
whose key has `user` as a prefix; and because keys are
`user + "_" + modelName`, a user string that is a prefix of another
user's name also wipes that other user's conversations (for example,
clearing `"bob"` deletes `"bobby"`'s keys). -/
theorem claim9_clearHistory_prefix_wipe {α : Type} (u1 u2 m : List Char)
    (hist : List (List Char × α)) (h : hasPrefixChars u2 u1 = true) :
    (∀ kv : List Char × α,
      kv ∈ clearHistory u1 hist ↔ kv ∈ hist ∧ hasPrefixChars kv.1 u1 = false) ∧
    (∀ kv : List Char × α,
      kv.1 = historyKey u2 m → kv ∉ clearHistory u1 hist) := by
  constructor
  · intro kv
    simp [clearHistory, List.mem_filter]
  · intro kv hkey hmem
    have hpre : hasPrefixChars kv.1 u1 = true := by
      rw [hkey]
      unfold historyKey
      exact hasPrefixChars_append_right _ m u1
        (hasPrefixChars_append_right u2 [Char.ofNat 0x5f] u1 h)
    have := (List.mem_filter.mp hmem).2
    simp [hpre] at this

/-- Claim C9, witness: clearing history for `"bob"` removes the stored
conversation keyed `"bobby" + "_" + "openai"`. -/
theorem claim9_witness :
    hasPrefixChars (("bobby").toList) (("bob").toList) = true ∧
    (historyKey (("bobby").toList) (("openai").toList), (0 : Nat)) ∉
      clearHistory (("bob").toList)
        [(historyKey (("bobby").toList) (("openai").toList), (0 : Nat))] :=
  ⟨by decide,
    (claim9_clearHistory_prefix_wipe (("bob").toList) (("bobby").toList) (("openai").toList)
      [(historyKey (("bobby").toList) (("openai").toList), (0 : Nat))]
      (by decide)).2
      (historyKey (("bobby").toList) (("openai").toList), (0 : Nat)) rfl⟩

/-- Claim C10: `availableTools` appends to the package-level
`defaultTools` value it was handed and returns the grown list, which
becomes the new `defaultTools`; so under a setting that enables the image
tool (OpenAI name) or the weather tool (non-empty OpenWeather key), each
successive call strictly grows the shared list, and from the second call
on the enabled tool occurs at least twice (duplicate definitions). -/
theorem claim10_defaultTools_growth (ms : LLMSetting) (d : List Tool)
    (h : ms.name = ConfigOpenAI ∨ ∃ k, ms.openWeatherKey = some k ∧ k ≠ "") :
    d.length < (availableTools ms d).length ∧
    (availableTools ms d).length < (availableTools ms (availableTools ms d)).length ∧
    ∃ t : Tool, 2 ≤ (availableTools ms (availableTools ms d)).count t := by
  have hgrow : ∀ e : List Tool, e.length < (availableTools ms e).length := by
    intro e
    unfold availableTools
    rcases h with hname | ⟨k, hk, hne⟩
    · rw [if_pos hname]
      cases hkey : ms.openWeatherKey with
      | none => simp
      | some k =>
        by_cases hk : k = ""
        · simp [hk]
        · simp [hk]
    · rw [hk]
      by_cases hname : ms.name = ConfigOpenAI <;>
        simp [hname, hne]
  refine ⟨hgrow d, hgrow (availableTools ms d), ?_⟩
  rcases h with hname | ⟨k, hk, hne⟩
  · refine ⟨imageTool, ?_⟩
    have hone : ∀ e : List Tool,
        e.count imageTool + 1 ≤ (availableTools ms e).count imageTool := by
      intro e
      unfold availableTools
      rw [if_pos hname]
      cases hkey : ms.openWeatherKey with
      | none => simp [List.count_append]
      | some k =>
        by_cases hk : k = ""
        · simp [hk, List.count_append]
        · simp [hk, List.count_append, weatherTool, imageTool, List.count_singleton]
    have h1 := hone d
    have h2 := hone (availableTools ms d)
    omega
  · refine ⟨weatherTool, ?_⟩
    have hone : ∀ e : List Tool,
        e.count weatherTool + 1 ≤ (availableTools ms e).count weatherTool := by
      intro e
      unfold availableTools
      rw [hk]
      by_cases hname : ms.name = ConfigOpenAI
      · simp [hname, hne, List.count_append, weatherTool, imageTool,
          List.count_singleton]
      · simp [hname, hne, List.count_append]
    have h1 := hone d
    have h2 := hone (availableTools ms d)
    omega

/-- Claim C10, witness: with an OpenAI setting and the initial
`defaultTools`, each of two successive calls grows the list and the image
tool ends up duplicated. -/
theorem claim10_witness :
    ((({ name := "openai", openWeatherKey := none } : LLMSetting).name = ConfigOpenAI ∨
      ∃ k, ({ name := "openai", openWeatherKey := none } : LLMSetting).openWeatherKey =
        some k ∧ k ≠ "") ∧
    (defaultTools0.length <
      (availableTools { name := "openai", openWeatherKey := none } defaultTools0).length ∧
     (availableTools { name := "openai", openWeatherKey := none } defaultTools0).length <
      (availableTools { name := "openai", openWeatherKey := none }
        (availableTools { name := "openai", openWeatherKey := none } defaultTools0)).length ∧
     ∃ t : Tool, 2 ≤ (availableTools { name := "openai", openWeatherKey := none }
        (availableTools { name := "openai", openWeatherKey := none } defaultTools0)).count t)) :=
  ⟨Or.inl rfl,
    claim10_defaultTools_growth { name := "openai", openWeatherKey := none }
      defaultTools0 (Or.inl rfl)⟩

/-- Claim C3, counterexample: on the return-direct completion path the
code persists only `content[len(content)-1]`, the AI turn; the Human
input is not persisted, so the stored history gains an AI turn without
its paired Human turn.  Concretely, a tool-supported turn with input
`"hi"` whose tool phase returns direct with text `"ans"` appends exactly
`[(AI, "ans")]` to history, not the claimed Human/AI pair. -/
theorem claim3_counterexample :
    (queryGoroutine true envOk decNone rtDirect genUnused [] ("hi")).saved =
      [(ChatRole.ai, "ans")] ∧
    ¬ ∃ t : String,
      (queryGoroutine true envOk decNone rtDirect genUnused [] ("hi")).saved =
        [(ChatRole.human, "hi"), (ChatRole.ai, t)] := by
  constructor
  · rfl
  · rintro ⟨t, ht⟩
    rw [show (queryGoroutine true envOk decNone rtDirect genUnused [] ("hi")).saved =
      [(ChatRole.ai, "ans")] from rfl] at ht
    simp at ht

/-- Claim C3 as amended: on the ordinary generation path a completed
`[(Human, input), (AI, text)]` pair is appended to history, but on the
return-direct (tool-phase) path only `[(AI, text)]` is appended — the
Human turn is dropped there, so the pairing invariant holds only off the
return-direct path. -/
theorem claim3_amended (env : ToolExecEnv) (dec : JsonToolDecoder)
    (rt : ProviderRoundTrip) (choice : ContentChoice) (gen : GenRoundTrip)
    (content : List MessageContent) (input t : String)
    (hres : rt.result = Except.ok choice) (hempty : choice.toolCalls = [])
    (hgen : gen.result = Except.ok t) (hne : gen.streamed ≠ [] ∨ t ≠ "") :
    (queryGoroutine true env dec rt gen content input).saved =
      [(ChatRole.ai, choice.content)] ∧
    (queryGoroutine false env dec rt gen content input).saved =
      [(ChatRole.human, input), (ChatRole.ai, t)] := by
  obtain ⟨rst, rres⟩ := rt
  obtain ⟨cc, calls⟩ := choice
  simp only at hres hempty
  subst hempty
  subst hres
  constructor
  · simp [queryGoroutine, executeToolCalls, List.getLast?_concat,
      saveHistoryEntries, firstPartText, TextParts]
  · obtain ⟨gst, gres⟩ := gen
    simp only at hgen hne
    subst hgen
    cases gst with
    | nil =>
      have ht : t ≠ "" := by
        rcases hne with hs | ht
        · exact absurd rfl hs
        · exact ht
      simp [queryGoroutine, generationPhase, ht, saveHistoryEntries,
        firstPartText, TextParts]
    | cons a l =>
      simp [queryGoroutine, generationPhase, saveHistoryEntries,
        firstPartText, TextParts]

/-- Claim C3 amended, witness: the return-direct run appends only the AI
turn, and an ordinary streaming run with final text `"yo"` appends the
completed pair. -/
theorem claim3_witness :
    (rtDirect.result = Except.ok { content := "ans", toolCalls := [] } ∧
      ({ content := "ans", toolCalls := [] } : ContentChoice).toolCalls = [] ∧
      ({ streamed := ["y"], result := Except.ok "yo" } : GenRoundTrip).result =
        Except.ok "yo" ∧
      (({ streamed := ["y"], result := Except.ok "yo" } : GenRoundTrip).streamed ≠
        ([] : List String) ∨ ("yo" : String) ≠ "")) ∧
    ((queryGoroutine true envOk decNone rtDirect
        { streamed := ["y"], result := Except.ok "yo" } [] ("hi")).saved =
      [(ChatRole.ai, "ans")] ∧
     (queryGoroutine false envOk decNone rtDirect
        { streamed := ["y"], result := Except.ok "yo" } [] ("hi")).saved =
      [(ChatRole.human, "hi"), (ChatRole.ai, "yo")]) :=
  ⟨⟨rfl, rfl, rfl, Or.inr (by decide)⟩,
    claim3_amended envOk decNone rtDirect { content := "ans", toolCalls := [] }
      { streamed := ["y"], result := Except.ok "yo" } [] ("hi") ("yo")
      rfl rfl rfl (Or.inr (by decide))⟩

/-- Claim C4: when the tool-phase provider response carries zero
tool-call requests, `executeToolCalls` appends the provider text as an AI
turn and returns `return_direct = true`, and the `Query` goroutine then
makes no second provider invocation (exactly one `GenerateContent` call
for the turn) and finishes without error. -/
theorem claim4_return_direct (env : ToolExecEnv) (dec : JsonToolDecoder)
    (rt : ProviderRoundTrip) (choice : ContentChoice) (gen : GenRoundTrip)
    (content : List MessageContent) (input : String)
    (hres : rt.result = Except.ok choice) (hempty : choice.toolCalls = []) :
    (executeToolCalls env dec rt content).2 =
      Except.ok (content ++ [TextParts ChatRole.ai choice.content], true) ∧
    (queryGoroutine true env dec rt gen content input).providerCalls = 1 ∧
    (queryGoroutine true env dec rt gen content input).errored = false := by
  obtain ⟨rst, rres⟩ := rt
  obtain ⟨cc, calls⟩ := choice
  simp only at hres hempty
  subst hempty
  subst hres
  refine ⟨?_, ?_, ?_⟩ <;>
    simp [queryGoroutine, executeToolCalls, TextParts]

/-- Claim C4, witness at the concrete return-direct round-trip. -/
theorem claim4_witness :
    (rtDirect.result = Except.ok { content := "ans", toolCalls := [] } ∧
      ({ content := "ans", toolCalls := [] } : ContentChoice).toolCalls = []) ∧
    ((executeToolCalls envOk decNone rtDirect []).2 =
      Except.ok ([TextParts ChatRole.ai "ans"], true) ∧
     (queryGoroutine true envOk decNone rtDirect genUnused [] ("hi")).providerCalls = 1 ∧
     (queryGoroutine true envOk decNone rtDirect genUnused [] ("hi")).errored = false) :=
  ⟨⟨rfl, rfl⟩, by
    have h := claim4_return_direct envOk decNone rtDirect
      { content := "ans", toolCalls := [] } genUnused [] ("hi") rfl rfl
    simpa using h⟩

/-- Claim C5: if the generation-phase provider streams no bytes and its
synchronous final text is empty, the Generating tail emits no fragment,
persists nothing (in particular no empty-text AI turn), and completes
without taking the error path. -/
theorem claim5_empty_nonstreaming (gen : GenRoundTrip) (input : String)
    (hs : gen.streamed = []) (hr : gen.result = Except.ok "") :
    (generationPhase gen input).fragments = [] ∧
    (generationPhase gen input).saved = [] ∧
    (generationPhase gen input).errored = false := by
  obtain ⟨gst, gres⟩ := gen
  simp only at hs hr
  subst hs
  subst hr
  simp [generationPhase]

/-- Claim C5, witness at the concrete silent round-trip. -/
theorem claim5_witness :
    (genUnused.streamed = [] ∧ genUnused.result = Except.ok "") ∧
    ((generationPhase genUnused ("hi")).fragments = [] ∧
     (generationPhase genUnused ("hi")).saved = [] ∧
     (generationPhase genUnused ("hi")).errored = false) :=
  ⟨⟨rfl, rfl⟩, claim5_empty_nonstreaming genUnused ("hi") rfl rfl⟩

/-- Streaming-callback events are never the close marker. -/
theorem isClose_outFragment_map (l : List String) (f : String → String)
    (e : ToolEvent) (he : e ∈ l.map (fun c => ToolEvent.outFragment (f c))) :
    isClose e = false := by
  rcases List.mem_map.mp he with ⟨c, _, rfl⟩
  rfl

/-- Streaming-callback events are never dispatches. -/
theorem isDispatch_outFragment_map (l : List String) (f : String → String)
    (e : ToolEvent) (he : e ∈ l.map (fun c => ToolEvent.outFragment (f c))) :
    isDispatch e = false := by
  rcases List.mem_map.mp he with ⟨c, _, rfl⟩
  rfl

/-- Every event emitted by the dispatch loop is a dispatch event; in
particular the loop never emits the close marker. -/
theorem toolCallLoop_events_dispatch (env : ToolExecEnv) (calls : List ToolCall) :
    ∀ e ∈ (toolCallLoop env calls).1, isDispatch e = true := by
  induction calls with
  | nil =>
    intro e he
    simp [toolCallLoop] at he
  | cons tc rest ih =>
    intro e he
    unfold toolCallLoop at he
    split at he
    · split at he
      · simp at he
      · split at he
        · simp at he
          subst he
          rfl
        · rcases List.mem_cons.mp he with h | h
          · subst h
            rfl
          · exact ih e h
    · split at he
      · split at he
        · simp at he
        · split at he
          · simp at he
            subst he
            rfl
          · rcases List.mem_cons.mp he with h | h
            · subst h
              rfl
            · exact ih e h
      · split at he
        · split at he
          · simp at he
          · split at he
            · simp at he
              subst he
              rfl
            · rcases List.mem_cons.mp he with h | h
              · subst h
                rfl
              · exact ih e h
        · exact ih e he

/-- Dispatch-loop events are never the close marker. -/
theorem toolCallLoop_no_close (env : ToolExecEnv) (calls : List ToolCall) :
    ∀ e ∈ (toolCallLoop env calls).1, isClose e = false := by
  intro e he
  have := toolCallLoop_events_dispatch env calls e he
  cases e with
  | outFragment s => rfl
  | closeMarkerSent => exact absurd this (by simp [isDispatch])
  | dispatch n => rfl

/-- A trace with no close marker has no dispatch-then-close pattern. -/
theorem dispatchBeforeClose_of_no_close (l : List ToolEvent)
    (h : ∀ e ∈ l, isClose e = false) : dispatchBeforeClose l = false := by
  induction l with
  | nil => rfl
  | cons e rest ih =>
    have h1 : isClose e = false := h e (List.mem_cons_self e rest)
    have h2 : rest.any isClose = false := by
      rw [List.any_eq_false]
      intro x hx
      simp [h x (List.mem_cons_of_mem e hx)]
    simp [dispatchBeforeClose, h2, ih (fun x hx => h x (List.mem_cons_of_mem e hx))]

/-- A dispatch-free prefix does not affect the dispatch-then-close
pattern. -/
theorem dispatchBeforeClose_append (l₁ l₂ : List ToolEvent)
    (h : ∀ e ∈ l₁, isDispatch e = false) :
    dispatchBeforeClose (l₁ ++ l₂) = dispatchBeforeClose l₂ := by
  induction l₁ with
  | nil => rfl
  | cons e rest ih =>
    have h1 : isDispatch e = false := h e (List.mem_cons_self e rest)
    simp only [List.cons_append, dispatchBeforeClose, h1, Bool.false_and,
      Bool.false_or]
    exact ih (fun x hx => h x (List.mem_cons_of_mem e hx))

/-- Claim C2, counterexample: on a streaming round-trip with two tool
calls, the close marker is emitted exactly once but its send is scheduled
*before* the dispatch loop runs — the trace contains both dispatches
strictly after the close marker, contradicting "only after every tool
call has been dispatched". -/
theorem claim2_counterexample :
    traceTwoTools = [ToolEvent.outFragment "x", ToolEvent.closeMarkerSent,
      ToolEvent.dispatch "getExchangeRate", ToolEvent.dispatch "getWeather"] ∧
    countCloseMarkers traceTwoTools = 1 ∧
    dispatchAfterClose traceTwoTools = true := by
  refine ⟨?_, ?_, ?_⟩ <;> rfl

/-- Claim C2 as amended: on every round-trip whose response carries tool
calls and where at least one streaming byte was observed, the close
marker is emitted exactly once, but it is scheduled before the dispatch
loop begins (no dispatch precedes it in the trace), not after the loop
completes. -/
theorem claim2_amended (env : ToolExecEnv) (dec : JsonToolDecoder)
    (rt : ProviderRoundTrip) (choice : ContentChoice)
    (content : List MessageContent)
    (hres : rt.result = Except.ok choice)
    (hstream : rt.streamed ≠ [])
    (hbytes : 0 < (rt.streamed.map String.length).sum)
    (hcalls : choice.toolCalls ≠ []) :
    countCloseMarkers (executeToolCalls env dec rt content).1 = 1 ∧
    dispatchBeforeClose (executeToolCalls env dec rt content).1 = false := by
  obtain ⟨st, res⟩ := rt
  simp only at hres hstream hbytes
  subst hres
  unfold executeToolCalls
  dsimp only
  rw [if_neg (by simpa [List.isEmpty_iff] using hcalls)]
  rw [if_pos (by exact ⟨by simpa [List.isEmpty_iff] using hstream, hbytes⟩)]
  constructor
  · have hc1 : (List.map (fun c =>
        ToolEvent.outFragment (parseToolCallStreamingChunk dec c false)) st).filter
        isClose = [] := by
      rw [List.filter_eq_nil_iff]
      intro e he
      simp [isClose_outFragment_map st _ e he]
    have hc2 : ((toolCallLoop env choice.toolCalls).1).filter isClose = [] := by
      rw [List.filter_eq_nil_iff]
      intro e he
      simp [toolCallLoop_no_close env choice.toolCalls e he]
    simp [countCloseMarkers, List.filter_append, hc1, hc2, isClose]
  · rw [List.append_assoc]
    rw [dispatchBeforeClose_append _ _
      (fun e he => isDispatch_outFragment_map st _ e he)]
    simp only [List.singleton_append, dispatchBeforeClose, isDispatch,
      Bool.false_and, Bool.false_or]
    exact dispatchBeforeClose_of_no_close _ (toolCallLoop_no_close env choice.toolCalls)

/-- Claim C2 amended, witness at the concrete two-tool streaming
round-trip. -/
theorem claim2_witness :
    (rtTwoTools.result =
        Except.ok { content := "", toolCalls := [tcExchange, tcWeather] } ∧
      rtTwoTools.streamed ≠ [] ∧
      0 < (rtTwoTools.streamed.map String.length).sum ∧
      ({ content := "", toolCalls := [tcExchange, tcWeather] } :
        ContentChoice).toolCalls ≠ []) ∧
    (countCloseMarkers (executeToolCalls envOk decNone rtTwoTools []).1 = 1 ∧
     dispatchBeforeClose (executeToolCalls envOk decNone rtTwoTools []).1 = false) :=
  ⟨⟨rfl, by decide, by decide, by decide⟩,
    claim2_amended envOk decNone rtTwoTools
      { content := "", toolCalls := [tcExchange, tcWeather] } []
      rfl (by decide) (by decide) (by decide)⟩

/-- Claim C8: a request whose tool name matches no implementation is
skipped without error — it is not dispatched and contributes no
tool-result turn — while the known-name requests in the same round-trip
(here an exchange-rate call before it and a weather call after it) still
execute, in order, and their results appear in the final content. -/
theorem claim8_unknown_tool_skipped (env : ToolExecEnv) (dec : JsonToolDecoder)
    (streamed : List String) (t d r1 l r2 : String) (tc1 tcu tc2 : ToolCall)
    (content : List MessageContent)
    (h1 : tc1.functionCall.name = "getExchangeRate")
    (hu1 : tcu.functionCall.name ≠ "getExchangeRate")
    (hu2 : tcu.functionCall.name ≠ "generateImage")
    (hu3 : tcu.functionCall.name ≠ "getWeather")
    (h2 : tc2.functionCall.name = "getWeather")
    (hp1 : env.parseExchangeArgs tc1.functionCall.arguments = Except.ok d)
    (he1 : env.getExchangeRate d = Except.ok r1)
    (hp2 : env.parseWeatherArgs tc2.functionCall.arguments = Except.ok l)
    (he2 : env.getWeather l = Except.ok r2) :
    (executeToolCalls env dec
        { streamed := streamed,
          result := Except.ok { content := t, toolCalls := [tc1, tcu, tc2] } }
        content).2 =
      Except.ok (content ++
        [{ role := ChatRole.ai,
           parts := [ContentPart.text t, ContentPart.toolCall tc1,
             ContentPart.toolCall tc2] }] ++
        [{ role := ChatRole.tool,
           parts := [ContentPart.toolResponse
             { toolCallID := tc1.id, name := tc1.functionCall.name,
               content := r1 }] },
         { role := ChatRole.tool,
           parts := [ContentPart.toolResponse
             { toolCallID := tc2.id, name := tc2.functionCall.name,
               content := r2 }] }], false) ∧
    ((executeToolCalls env dec
        { streamed := streamed,
          result := Except.ok { content := t, toolCalls := [tc1, tcu, tc2] } }
        content).1).filter isDispatch =
      [ToolEvent.dispatch tc1.functionCall.name,
       ToolEvent.dispatch tc2.functionCall.name] := by
  have hloop : toolCallLoop env [tc1, tcu, tc2] =
      ([ToolEvent.dispatch tc1.functionCall.name,
        ToolEvent.dispatch tc2.functionCall.name],
       Except.ok ([ContentPart.toolCall tc1, ContentPart.toolCall tc2],
        [{ role := ChatRole.tool,
           parts := [ContentPart.toolResponse
             { toolCallID := tc1.id, name := tc1.functionCall.name,
               content := r1 }] },
         { role := ChatRole.tool,
           parts := [ContentPart.toolResponse
             { toolCallID := tc2.id, name := tc2.functionCall.name,
               content := r2 }] }])) := by
    have hstep2 : toolCallLoop env [tc2] =
        ([ToolEvent.dispatch tc2.functionCall.name],
         Except.ok ([ContentPart.toolCall tc2],
          [{ role := ChatRole.tool,
             parts := [ContentPart.toolResponse
               { toolCallID := tc2.id, name := tc2.functionCall.name,
                 content := r2 }] }])) := by
      unfold toolCallLoop
      rw [if_neg (by rw [h2]; decide), if_neg (by rw [h2]; decide),
        if_pos h2, hp2]
      dsimp only
      rw [he2]
      rfl
    have hstepu : toolCallLoop env [tcu, tc2] = toolCallLoop env [tc2] := by
      conv =>
        lhs
        unfold toolCallLoop
      rw [if_neg hu1, if_neg hu2, if_neg hu3]
    unfold toolCallLoop
    rw [if_pos h1, hp1]
    dsimp only
    rw [he1, hstepu, hstep2]
  constructor
  · unfold executeToolCalls
    dsimp only
    rw [if_neg (by simp)]
    rw [hloop]
    simp [TextParts]
  · unfold executeToolCalls
    dsimp only
    rw [if_neg (by simp)]
    rw [hloop]
    have hc1 : (List.map (fun c =>
        ToolEvent.outFragment (parseToolCallStreamingChunk dec c false))
          streamed).filter isDispatch = [] := by
      rw [List.filter_eq_nil_iff]
      intro e he
      simp [isDispatch_outFragment_map streamed _ e he]
    by_cases hcond : (!streamed.isEmpty : Bool) ∧
        0 < (streamed.map String.length).sum
    · rw [if_pos hcond]
      simp [List.filter_append, hc1, isDispatch]
    · rw [if_neg hcond]
      simp [List.filter_append, hc1, isDispatch]

/-- Claim C8, witness: `"doSomethingUndefined"` between an exchange-rate
call and a weather call is skipped while both known calls execute and
their results land in the final content. -/
theorem claim8_witness :
    (tcExchange.functionCall.name = "getExchangeRate" ∧
      tcUnknown.functionCall.name ≠ "getExchangeRate" ∧
      tcUnknown.functionCall.name ≠ "generateImage" ∧
      tcUnknown.functionCall.name ≠ "getWeather" ∧
      tcWeather.functionCall.name = "getWeather" ∧
      envOk.parseExchangeArgs tcExchange.functionCall.arguments =
        Except.ok "latest" ∧
      envOk.getExchangeRate ("latest") = Except.ok "rates" ∧
      envOk.parseWeatherArgs tcWeather.functionCall.arguments = Except.ok "loc" ∧
      envOk.getWeather ("loc") = Except.ok "sunny") ∧
    ((executeToolCalls envOk decNone
        { streamed := [],
          result := Except.ok { content := "", toolCalls := [tcExchange, tcUnknown, tcWeather] } }
        []).2 =
      Except.ok ([] ++
        [{ role := ChatRole.ai,
           parts := [ContentPart.text "", ContentPart.toolCall tcExchange,
             ContentPart.toolCall tcWeather] }] ++
        [{ role := ChatRole.tool,
           parts := [ContentPart.toolResponse
             { toolCallID := tcExchange.id, name := tcExchange.functionCall.name,
               content := "rates" }] },
         { role := ChatRole.tool,
           parts := [ContentPart.toolResponse
             { toolCallID := tcWeather.id, name := tcWeather.functionCall.name,
               content := "sunny" }] }], false) ∧
     ((executeToolCalls envOk decNone
        { streamed := [],
          result := Except.ok { content := "", toolCalls := [tcExchange, tcUnknown, tcWeather] } }
        []).1).filter isDispatch =
      [ToolEvent.dispatch tcExchange.functionCall.name,
       ToolEvent.dispatch tcWeather.functionCall.name]) :=
  ⟨⟨rfl, by decide, by decide, by decide, rfl, rfl, rfl, rfl, rfl⟩,
    claim8_unknown_tool_skipped envOk decNone [] ("") ("latest") ("rates")
      ("loc") ("sunny") tcExchange tcUnknown tcWeather []
      rfl (by decide) (by decide) (by decide) rfl rfl rfl rfl rfl⟩

/-- Claim C1, counterexample: a single 5000-rune fragment followed by
channel close yields an accumulated text of 5003 runes (> 2000), yet the
delivery loop produces a final reply longer than 2000 runes and the
concatenation of all messages does not reproduce the accumulated text
(the first 2000 runes are never flushed into the open message on the
close path). -/
theorem claim1_counterexample :
    2000 < (accumulatedText mdlC1 evsC1).length ∧
    (∃ w ∈ runDelivery mdlC1 evsC1, 2000 < w.length) ∧
    (runDelivery mdlC1 evsC1).flatten ≠ accumulatedText mdlC1 evsC1 := by
  have hfold : evsC1.foldl (deliveryStep mdlC1) (initDelivery mdlC1) =
      { message := combineModelWithMessage mdlC1 [] ++ List.replicate 5000 'a',
        openDisp := ("✏️ ...").toList, sealed := [] } := rfl
  have hpre : (combineModelWithMessage mdlC1 []).length = 3 := by decide
  have hlen : (combineModelWithMessage mdlC1 [] ++
      List.replicate 5000 'a').length = 5003 := by
    rw [List.length_append, hpre, List.length_replicate]
  have hrun : runDelivery mdlC1 evsC1 =
      [("✏️ ...").toList,
       (combineModelWithMessage mdlC1 [] ++ List.replicate 5000 'a').drop 2000] := by
    unfold runDelivery
    rw [hfold]
    unfold deliveryClose
    rw [if_neg (by rw [hlen]; omega)]
    rfl
  have hdrop : ((combineModelWithMessage mdlC1 [] ++
      List.replicate 5000 'a').drop 2000).length = 3003 := by
    rw [List.length_drop, hlen]
  have haccEq : accumulatedText mdlC1 evsC1 =
      combineModelWithMessage mdlC1 [] ++ (List.replicate 5000 'a' ++ []) := rfl
  have hacc : (accumulatedText mdlC1 evsC1).length = 5003 := by
    rw [haccEq, List.append_nil, hlen]
  have hpencil : (("✏️ ...").toList).length = 6 := by decide
  refine ⟨by omega, ?_, ?_⟩
  · refine ⟨(combineModelWithMessage mdlC1 [] ++
      List.replicate 5000 'a').drop 2000, ?_, by rw [hdrop]; omega⟩
    rw [hrun]
    exact List.mem_cons_of_mem _ (List.mem_cons_self _ _)
  · intro heq
    have hflat : ((runDelivery mdlC1 evsC1).flatten).length = 3009 := by
      rw [hrun]
      simp only [List.flatten, List.append_nil, List.length_append, hpencil, hdrop]
    rw [heq] at hflat
    omega

/-- Claim C1 as amended: a ticker-path split seals the current window
with exactly the first 2000 runes of the accumulated text (a window of at
most 2000 runes) and seeds the successor with
`combineModelWithMessage(modelName, "⏩ ")` followed by the remainder —
so the original text is recovered only after dropping the inserted
continuation prefix, not by plain concatenation. -/
theorem claim1_amended (modelName : List Char) (s : DeliveryState)
    (h : 2000 < s.message.length) :
    (deliveryStep modelName s DEvent.tick).sealed =
      s.sealed ++ [s.message.take 2000] ∧
    (s.message.take 2000).length ≤ 2000 ∧
    (deliveryStep modelName s DEvent.tick).message =
      contSeed modelName ++ s.message.drop 2000 ∧
    s.message.take 2000 ++
      ((deliveryStep modelName s DEvent.tick).message).drop
        (contSeed modelName).length = s.message := by
  have hnot : ¬ s.message.length ≤ 2000 := by omega
  refine ⟨?_, ?_, ?_, ?_⟩
  · simp [deliveryStep, hnot]
  · simp only [List.length_take]
    omega
  · simp [deliveryStep, hnot]
  · rw [show (deliveryStep modelName s DEvent.tick).message =
        contSeed modelName ++ s.message.drop 2000 from by
      simp [deliveryStep, hnot]]
    rw [List.drop_left]
    exact List.take_append_drop 2000 s.message

/-- Claim C1 amended, witness at a 2001-rune accumulated state. -/
theorem claim1_witness :
    2000 < stateC1.message.length ∧
    ((deliveryStep mdlC1 stateC1 DEvent.tick).sealed =
        stateC1.sealed ++ [stateC1.message.take 2000] ∧
      (stateC1.message.take 2000).length ≤ 2000 ∧
      (deliveryStep mdlC1 stateC1 DEvent.tick).message =
        contSeed mdlC1 ++ stateC1.message.drop 2000 ∧
      stateC1.message.take 2000 ++
        ((deliveryStep mdlC1 stateC1 DEvent.tick).message).drop
          (contSeed mdlC1).length = stateC1.message) :=
  have hlt : 2000 < stateC1.message.length := by
    show 2000 < (List.replicate 2001 'a').length
    rw [List.length_replicate]
    omega
  ⟨hlt, claim1_amended mdlC1 stateC1 hlt⟩

end Llmverse
